import Mathlib

/-!
Shallow embedding of `src/app.py` (lead-gen dashboard): the candidate data
model, the propensity scorer, the PubMed fetch adapter, the enrichment
simulator and the render-time sort, together with theorems checking the
specification's claims about them.

Python dictionaries with a fixed key set are embedded as a structure; a key
read with `d.get(k)` / `d.get(k, default)` (which tolerates absence) has an
`Option` typed field, while a key read with `d[k]` (which raises on absence)
is kept total here and absence elsewhere is modelled with `Except`.
Python's `in` on strings is contiguous-substring containment, embedded as
`List.IsInfix` on the character lists.
-/

/-- One lead record, as built by `fetch_pubmed_leads` (src/app.py lines 65-73)
and consumed by `calculate_propensity_score`. Fields the scorer reads with
`dict.get` (`Affiliation`, `Enriched_Location`, `Enriched_Funding`) are
`Option`-typed: `none` models an absent key. -/
structure Candidate where
  Name : String
  Title : String
  Company : String
  Affiliation : Option String
  LinkedIn : String
  Enriched_Location : Option String
  Enriched_Funding : Option String
deriving DecidableEq

/-- Substring test: Python's `needle in hay` on strings. -/
def strContains (hay needle : String) : Bool :=
  decide (needle.data <:+: hay.data)

/-- Python's `str.lower()`: lowercase each character (same characterwise map
as `String.toLower`, written over the character list so the kernel can
evaluate it). -/
def str_lower (s : String) : String := ⟨s.data.map Char.toLower⟩

/-- Keyword set of the role/topic-fit rule (src/app.py line 14). -/
def target_roles : List String := ["toxicology", "safety", "hepatic", "3d", "liver", "vitro"]

/-- Hub-name set of the location rule (src/app.py line 25). -/
def hubs : List String := ["boston", "cambridge", "bay area", "basel", "london", "oxford"]

/-- The location string the hub rule inspects (src/app.py line 26):
`candidate.get('Enriched_Location', candidate.get('Affiliation', '')).lower()`.
Note `dict.get` falls back to the second argument only when the KEY is
absent, not when its value is the empty string. -/
def loc_lower (c : Candidate) : String :=
  str_lower (c.Enriched_Location.getD (c.Affiliation.getD ""))

/-- Condition of rule 1, role/topic fit (src/app.py line 16). -/
def role_fires (c : Candidate) : Bool :=
  target_roles.any (fun keyword => strContains (str_lower c.Title) keyword)

/-- Condition of rule 3, hub location (src/app.py line 28). -/
def hub_fires (c : Candidate) : Bool :=
  hubs.any (fun hub => strContains (loc_lower c) hub)

/-- Condition of rule 4, funding (src/app.py line 33):
`candidate.get('Enriched_Funding') in ['Series A', 'Series B', 'Public']`.
A missing key gives Python `None`, which is not in the list. -/
def funding_fires (c : Candidate) : Bool :=
  match c.Enriched_Funding with
  | some f => decide (f ∈ ["Series A", "Series B", "Public"])
  | none => false

/-- The scorer (src/app.py lines 8-37): returns `min(score, 100)` and the
comma-joined breakdown of the rules that fired, in rule order. -/
def calculate_propensity_score (c : Candidate) : Nat × String :=
  let score : Nat := 0
  let breakdown : List String := []
  let score := if role_fires c then score + 30 else score
  let breakdown := if role_fires c then breakdown ++ ["Role Fit (+30)"] else breakdown
  let score := score + 40
  let breakdown := breakdown ++ ["Scientific Intent (+40)"]
  let score := if hub_fires c then score + 10 else score
  let breakdown := if hub_fires c then breakdown ++ ["Hub Location (+10)"] else breakdown
  let score := if funding_fires c then score + 20 else score
  let breakdown := if funding_fires c then breakdown ++ ["Funding (+20)"] else breakdown
  (min score 100, String.intercalate ", " breakdown)

/-! ## Source adapter: `fetch_pubmed_leads` (src/app.py lines 41-77) -/

/-- One entry of the summary response's `authors` array. The code reads
`authors[0]['name']`; `name` is `Option`-typed because a missing `name` key
raises `KeyError` in Python (caught by the outer handler). -/
structure Author where
  name : Option String
deriving DecidableEq

/-- One per-id record of the summary response: the fields the adapter reads
(`item.get('title', ...)`, `item.get('source', ...)`, `item.get('authors', [])`),
all read with `dict.get` and hence `Option`-typed. -/
structure SummaryItem where
  title : Option String
  source : Option String
  authors : Option (List Author)
deriving DecidableEq

/-- The summary response's `result` object: an association of PubMed uid
strings to summary records. `uid in uid_dict` / `uid_dict[uid]` is embedded
as `List.lookup`. -/
abbrev SummaryDict := List (String × SummaryItem)

/-- The external world seen by one run of `fetch_pubmed_leads`.
`searchIds` is the outcome of `requests.get(search_url).json()['esearchresult']['idlist']`
(src/app.py lines 47-48): `Except.error` models any raised network, JSON-decode
or missing-key exception on those lines, `Except.ok` the extracted id list.
`summary` is likewise the outcome of
`requests.get(summary_url).json()['result']` (lines 53-56). -/
structure FetchEnv where
  searchIds : Except String (List String)
  summary : Except String SummaryDict

/-- The dict appended for one kept uid (src/app.py lines 65-73). -/
def build_lead (primary_author : String) (item : SummaryItem) : Candidate :=
  { Name := primary_author
    Title := item.title.getD "No Title"
    Company := item.source.getD "Unknown Journal"
    Affiliation := some "Check LinkedIn"
    LinkedIn := "https://www.linkedin.com/search/results/people/?keywords=" ++ primary_author
    Enriched_Location := some ""
    Enriched_Funding := some "" }

/-- The uid loop of src/app.py lines 58-73: walk `id_list` in order; skip a
uid absent from `uid_dict`; skip an item whose `authors` (defaulted to `[]`)
is empty; otherwise read `authors[0]['name']` — a missing `name` key raises
(`Except.error`), aborting the whole loop as the Python exception would —
and append the built lead. -/
def build_leads (id_list : List String) (uid_dict : SummaryDict) :
    Except String (List Candidate) :=
  match id_list with
  | [] => .ok []
  | uid :: rest =>
    match uid_dict.lookup uid with
    | none => build_leads rest uid_dict
    | some item =>
      match item.authors.getD [] with
      | [] => build_leads rest uid_dict
      | a :: _ =>
        match a.name with
        | none => .error "KeyError: name"
        | some primary_author =>
          (build_leads rest uid_dict).map (fun leads => build_lead primary_author item :: leads)

/-- The body of the `try` block (src/app.py lines 47-74), before the
`except` handler. The second component records whether the summary request
(the second HTTP call, line 53) was issued. -/
def fetch_attempt (env : FetchEnv) : Except String (List Candidate) × Bool :=
  match env.searchIds with
  | .error e => (.error e, false)
  | .ok id_list =>
    if id_list.isEmpty then (.ok [], false)
    else
      match env.summary with
      | .error e => (.error e, true)
      | .ok uid_dict => (build_leads id_list uid_dict, true)

/-- `fetch_pubmed_leads` (src/app.py lines 42-77) with its `except Exception`
handler: any error raised inside the try block yields the empty list plus the
`st.error` message that is reported (second component, `none` when no error
was reported). -/
def fetch_pubmed_leads (env : FetchEnv) : List Candidate × Option String :=
  match (fetch_attempt env).1 with
  | .ok leads => (leads, none)
  | .error e => ([], some ("Error connecting to PubMed: " ++ e))

/-! ## Enrichment simulator (src/app.py lines 104-113) -/

/-- The enrichment loop (src/app.py lines 106-113), run when the enrich
button is pressed and the held list is non-empty. `draws k` is the value of
the `(k+1)`-th call of `random.random()`, embedded as a rational in `[0,1)`;
each person consumes one draw, and a second one only when the first branch's
test fails, exactly as the Python `if random.random() < 0.3 … elif
random.random() < 0.5` evaluates. Returns the updated list and the index of
the next unused draw. -/
def enrich_data (draws : Nat → ℚ) (k : Nat) :
    List Candidate → List Candidate × Nat
  | [] => ([], k)
  | person :: rest =>
    if draws k < 3/10 then
      let r := enrich_data draws (k + 1) rest
      ({ person with
          Enriched_Location := some "Cambridge, MA"
          Enriched_Funding := some "Series B"
          Company := "Apex Biopharma" } :: r.1, r.2)
    else if draws (k + 1) < 5/10 then
      let r := enrich_data draws (k + 2) rest
      ({ person with
          Enriched_Location := some "Basel, Switzerland"
          Enriched_Funding := some "Grant Funded" } :: r.1, r.2)
    else
      let r := enrich_data draws (k + 2) rest
      (person :: r.1, r.2)

/-! ## Render step (src/app.py lines 116-130)

The rows are scored in held order, put in a DataFrame and sorted with
`df.sort_values(by="Probability Score", ascending=False)`. For a single sort
key pandas computes an ascending argsort of the key column and, because
`ascending=False`, reverses that indexer (`pandas.core.sorting.nargsort`).
On the at-most-15-element arrays this app produces (the search request uses
`retmax=15`), numpy's default argsort runs its insertion-sort path, which
orders ascending and keeps equal keys in original order; we embed that as a
stable ascending insertion sort, and the descending sort as its reversal. -/

/-- A scored row: the candidate dict after line 120-121 added
`'Probability Score'` and `'Scoring Factors'`. -/
structure ProcessedRow where
  cand : Candidate
  score : Nat
  factors : String
deriving DecidableEq

/-- Lines 117-122: score every held row in order. -/
def process_leads (held : List Candidate) : List ProcessedRow :=
  held.map (fun c =>
    { cand := c
      score := (calculate_propensity_score c).1
      factors := (calculate_propensity_score c).2 })

/-- Insert a row into an ascending-by-score list, before the first row of
equal or larger score (the stable ascending insertion step of numpy's
insertion sort). -/
def insertAsc (x : ProcessedRow) : List ProcessedRow → List ProcessedRow
  | [] => [x]
  | y :: ys => if x.score ≤ y.score then x :: y :: ys else y :: insertAsc x ys

/-- Stable ascending sort by score (numpy's ascending argsort on the score
column, applied to the rows). -/
def sortAsc (rows : List ProcessedRow) : List ProcessedRow :=
  match rows with
  | [] => []
  | x :: xs => insertAsc x (sortAsc xs)

/-- `df.sort_values(by="Probability Score", ascending=False)` (src/app.py
line 125): pandas reverses the ascending argsort's indexer. -/
def sort_values (rows : List ProcessedRow) : List ProcessedRow :=
  (sortAsc rows).reverse

/-- The render pipeline on the held list (src/app.py lines 116-125): score
each row, then sort descending by score. -/
def render (held : List Candidate) : List ProcessedRow :=
  sort_values (process_leads held)

/-! ## Theorems about the scorer -/

/-- The breakdown string contains the label `"Role Fit (+30)"` exactly when
rule 1 fired. -/
lemma factors_role (c : Candidate) :
    strContains (calculate_propensity_score c).2 "Role Fit (+30)" = role_fires c := by
  unfold calculate_propensity_score
  cases h1 : role_fires c <;> cases h2 : hub_fires c <;> cases h3 : funding_fires c <;>
    simp [h1, h2, h3] <;> decide

/-- The breakdown string contains the label `"Hub Location (+10)"` exactly
when rule 3 fired. -/
lemma factors_hub (c : Candidate) :
    strContains (calculate_propensity_score c).2 "Hub Location (+10)" = hub_fires c := by
  unfold calculate_propensity_score
  cases h1 : role_fires c <;> cases h2 : hub_fires c <;> cases h3 : funding_fires c <;>
    simp [h1, h2, h3] <;> decide

/-- The breakdown string contains the label `"Funding (+20)"` exactly when
rule 4 fired. -/
lemma factors_funding (c : Candidate) :
    strContains (calculate_propensity_score c).2 "Funding (+20)" = funding_fires c := by
  unfold calculate_propensity_score
  cases h1 : role_fires c <;> cases h2 : hub_fires c <;> cases h3 : funding_fires c <;>
    simp [h1, h2, h3] <;> decide

/-- C1: for every well-formed candidate the score satisfies
`40 ≤ score ≤ 100`, and the breakdown string is non-empty and always
contains `"Scientific Intent (+40)"`. -/
theorem calculate_propensity_score_bounds (c : Candidate) :
    40 ≤ (calculate_propensity_score c).1 ∧ (calculate_propensity_score c).1 ≤ 100 ∧
      (calculate_propensity_score c).2 ≠ "" ∧
      strContains (calculate_propensity_score c).2 "Scientific Intent (+40)" = true := by
  unfold calculate_propensity_score
  cases h1 : role_fires c <;> cases h2 : hub_fires c <;> cases h3 : funding_fires c <;>
    simp [h1, h2, h3] <;> decide

/-- C2 counterexample: a candidate whose `Enriched_Location` key is present
with the empty string and whose affiliation contains the hub name
`"boston"`. The claim says the +10 fires; in the code `dict.get` returns the
empty string (the fallback engages only on an absent key), so the hub rule
does not fire and the score stays 40. -/
theorem hub_location_empty_string_counterexample :
    (({ Name := "A", Title := "X", Company := "J",
        Affiliation := some "Boston, MA", LinkedIn := "",
        Enriched_Location := some "", Enriched_Funding := some "" } : Candidate).Enriched_Location
        = some "") ∧
    strContains (str_lower "Boston, MA") "boston" = true ∧
    hub_fires
      { Name := "A", Title := "X", Company := "J",
        Affiliation := some "Boston, MA", LinkedIn := "",
        Enriched_Location := some "", Enriched_Funding := some "" } = false ∧
    (calculate_propensity_score
      { Name := "A", Title := "X", Company := "J",
        Affiliation := some "Boston, MA", LinkedIn := "",
        Enriched_Location := some "", Enriched_Funding := some "" }).1 = 40 ∧
    strContains
      (calculate_propensity_score
        { Name := "A", Title := "X", Company := "J",
          Affiliation := some "Boston, MA", LinkedIn := "",
          Enriched_Location := some "", Enriched_Funding := some "" }).2
      "Hub Location (+10)" = false := by
  decide

/-- C2 (amended): the hub rule adds +10 exactly when the location string —
the value of the `Enriched_Location` KEY when that key is present (even if
its value is the empty string), otherwise the affiliation as fallback —
lowercased contains one of the hub names as a substring; in particular, for
every candidate whose `Enriched_Location` key is ABSENT and whose
affiliation contains a hub name, the +10 fires. -/
theorem hub_location_key_fallback (c : Candidate) :
    (strContains (calculate_propensity_score c).2 "Hub Location (+10)" = true ↔
      ∃ hub ∈ hubs,
        hub.data <:+: (str_lower (c.Enriched_Location.getD (c.Affiliation.getD ""))).data) ∧
    (c.Enriched_Location = none →
      (∃ hub ∈ hubs, hub.data <:+: (str_lower (c.Affiliation.getD "")).data) →
      strContains (calculate_propensity_score c).2 "Hub Location (+10)" = true) := by
  have key : hub_fires c = true ↔
      ∃ hub ∈ hubs,
        hub.data <:+: (str_lower (c.Enriched_Location.getD (c.Affiliation.getD ""))).data := by
    simp [hub_fires, strContains, loc_lower, List.any_eq_true]
  refine ⟨by rw [factors_hub]; exact key, ?_⟩
  intro hnone hex
  rw [factors_hub, key, hnone]
  simpa using hex

/-- Witness for C2 (amended) at a concrete candidate with an absent
`Enriched_Location` key and a Boston affiliation: the hub label appears in
the breakdown. -/
theorem hub_location_key_fallback_witness :
    strContains
      (calculate_propensity_score
        { Name := "A", Title := "X", Company := "J",
          Affiliation := some "Boston, MA", LinkedIn := "",
          Enriched_Location := none, Enriched_Funding := some "" }).2
      "Hub Location (+10)" = true :=
  (hub_location_key_fallback _).2 rfl ⟨"boston", by decide, by decide⟩

/-- C6: the funding rule adds +20 iff `Enriched_Funding` is exactly one of
`"Series A"`, `"Series B"`, `"Public"` (case-sensitive equality, not
substring); and a candidate with `Enriched_Funding = "Series A"` for which
no other optional rule fires scores exactly 60. -/
theorem funding_rule_exact_match (c : Candidate) :
    (strContains (calculate_propensity_score c).2 "Funding (+20)" = true ↔
      (c.Enriched_Funding = some "Series A" ∨ c.Enriched_Funding = some "Series B" ∨
        c.Enriched_Funding = some "Public")) ∧
    (role_fires c = false → hub_fires c = false → c.Enriched_Funding = some "Series A" →
      (calculate_propensity_score c).1 = 60) := by
  have key : funding_fires c = true ↔
      (c.Enriched_Funding = some "Series A" ∨ c.Enriched_Funding = some "Series B" ∨
        c.Enriched_Funding = some "Public") := by
    unfold funding_fires
    cases h : c.Enriched_Funding <;> simp [h]
  refine ⟨by rw [factors_funding]; exact key, ?_⟩
  intro h1 h2 hf
  have hff : funding_fires c = true := key.mpr (Or.inl hf)
  unfold calculate_propensity_score
  simp [h1, h2, hff]

/-- Witness for C6 at a concrete candidate: no role keyword in the title, no
hub in the location, funding exactly `"Series A"`, score exactly 60. -/
theorem funding_rule_exact_match_witness :
    role_fires
        { Name := "A", Title := "X", Company := "J",
          Affiliation := some "Check LinkedIn", LinkedIn := "",
          Enriched_Location := some "", Enriched_Funding := some "Series A" } = false ∧
    hub_fires
        { Name := "A", Title := "X", Company := "J",
          Affiliation := some "Check LinkedIn", LinkedIn := "",
          Enriched_Location := some "", Enriched_Funding := some "Series A" } = false ∧
    (calculate_propensity_score
        { Name := "A", Title := "X", Company := "J",
          Affiliation := some "Check LinkedIn", LinkedIn := "",
          Enriched_Location := some "", Enriched_Funding := some "Series A" }).1 = 60 :=
  ⟨by decide, by decide,
    (funding_rule_exact_match _).2 (by decide) (by decide) rfl⟩

/-- C7: the role/topic-fit rule adds +30 exactly when the lowercased title
contains one of the fixed keywords as a substring; and a candidate whose
title contains `"Hepatic"` in any case, with no other optional rule firing,
scores exactly 70. -/
theorem role_fit_rule (c : Candidate) :
    (strContains (calculate_propensity_score c).2 "Role Fit (+30)" = true ↔
      ∃ keyword ∈ target_roles, keyword.data <:+: (str_lower c.Title).data) ∧
    (("hepatic" : String).data <:+: (str_lower c.Title).data →
      hub_fires c = false → funding_fires c = false →
      (calculate_propensity_score c).1 = 70) := by
  have key : role_fires c = true ↔
      ∃ keyword ∈ target_roles, keyword.data <:+: (str_lower c.Title).data := by
    simp [role_fires, strContains, List.any_eq_true]
  refine ⟨by rw [factors_role]; exact key, ?_⟩
  intro hh h2 h3
  have hr : role_fires c = true := key.mpr ⟨"hepatic", by decide, hh⟩
  unfold calculate_propensity_score
  simp [hr, h2, h3]

/-- Witness for C7 at a concrete candidate whose title contains `"Hepatic"`
uppercased and for which no other optional rule fires: score exactly 70. -/
theorem role_fit_rule_witness :
    (("hepatic" : String).data <:+: (str_lower "Hepatic injury in rats").data) ∧
    hub_fires
        { Name := "A", Title := "Hepatic injury in rats", Company := "J",
          Affiliation := some "Check LinkedIn", LinkedIn := "",
          Enriched_Location := some "", Enriched_Funding := some "" } = false ∧
    funding_fires
        { Name := "A", Title := "Hepatic injury in rats", Company := "J",
          Affiliation := some "Check LinkedIn", LinkedIn := "",
          Enriched_Location := some "", Enriched_Funding := some "" } = false ∧
    (calculate_propensity_score
        { Name := "A", Title := "Hepatic injury in rats", Company := "J",
          Affiliation := some "Check LinkedIn", LinkedIn := "",
          Enriched_Location := some "", Enriched_Funding := some "" }).1 = 70 :=
  ⟨by decide, by decide, by decide,
    (role_fit_rule _).2 (by decide) (by decide) (by decide)⟩

/-! ## Theorems about the source adapter -/

/-- C4: the adapter fails soft. Whatever failure arises anywhere inside the
two-call protocol (network or JSON-decode error on either call, a missing
key while extracting the id list or the result dict, or the missing author
name inside the loop), `fetch_pubmed_leads` returns the empty list together
with the reported error message; being a total Lean function, it propagates
no exception to the caller. -/
theorem fetch_pubmed_leads_fails_soft (env : FetchEnv) (e : String)
    (h : (fetch_attempt env).1 = .error e) :
    fetch_pubmed_leads env = ([], some ("Error connecting to PubMed: " ++ e)) := by
  unfold fetch_pubmed_leads
  rw [h]

/-- Witness for C4 at a concrete environment whose search call fails. -/
theorem fetch_pubmed_leads_fails_soft_witness :
    fetch_pubmed_leads { searchIds := .error "ConnectionError", summary := .ok [] }
      = ([], some ("Error connecting to PubMed: " ++ "ConnectionError")) :=
  fetch_pubmed_leads_fails_soft _ "ConnectionError" rfl

/-- C8: when the search call yields an empty identifier list, the adapter
returns the empty list at once and the second (summary) call is never
issued (the `Bool` component of `fetch_attempt` stays `false`), whatever
the summary endpoint would have answered. -/
theorem fetch_empty_idlist_no_summary_call (env : FetchEnv)
    (h : env.searchIds = .ok []) :
    fetch_attempt env = (.ok [], false) ∧ fetch_pubmed_leads env = ([], none) := by
  have ha : fetch_attempt env = (.ok [], false) := by
    unfold fetch_attempt
    rw [h]
    rfl
  exact ⟨ha, by unfold fetch_pubmed_leads; rw [ha]⟩

/-- Witness for C8: a concrete environment with an empty id list and a
summary endpoint that would fail if queried; the fetch still succeeds with
the empty list and no summary call. -/
theorem fetch_empty_idlist_no_summary_call_witness :
    fetch_attempt { searchIds := .ok [], summary := .error "unreachable" } = (.ok [], false) ∧
    fetch_pubmed_leads { searchIds := .ok [], summary := .error "unreachable" } = ([], none) :=
  fetch_empty_idlist_no_summary_call _ rfl

/-- Whether an item's (defaulted) author list is either empty or led by an
author record that has a `name` key. The uid loop raises precisely when this
fails for a looked-up item. -/
def first_author_named (item : SummaryItem) : Bool :=
  match item.authors.getD [] with
  | [] => true
  | a :: _ => a.name.isSome

/-- The candidate the SPECIFICATION expects for one identifier: none when
the id is absent from the summary or has no listed authors, otherwise the
lead built from the first author. Written from the spec's per-id description
to compare with the implementation's loop. -/
def spec_lead_for (uid_dict : SummaryDict) (uid : String) : Option Candidate :=
  match uid_dict.lookup uid with
  | none => none
  | some item =>
    match item.authors.getD [] with
    | [] => none
    | a :: _ => a.name.map (fun n => build_lead n item)

lemma lookup_mem {α : Type} [DecidableEq α] {β : Type} (l : List (α × β)) (k : α) (v : β)
    (h : l.lookup k = some v) : (k, v) ∈ l := by
  induction l with
  | nil => simp [List.lookup] at h
  | cons p rest ih =>
    rw [List.lookup] at h
    by_cases hk : k = p.1
    · subst hk
      simp at h
      subst h
      exact List.mem_cons_self _ _
    · have : (k == p.1) = false := beq_false_of_ne hk
      rw [this] at h
      exact List.mem_cons_of_mem _ (ih h)

lemma build_leads_eq_filterMap (uid_dict : SummaryDict)
    (hnames : ∀ p ∈ uid_dict, first_author_named p.2 = true) :
    ∀ id_list : List String,
      build_leads id_list uid_dict = .ok (id_list.filterMap (spec_lead_for uid_dict)) := by
  intro id_list
  induction id_list with
  | nil => rfl
  | cons uid rest ih =>
    cases hlk : uid_dict.lookup uid with
    | none => simp [build_leads, List.filterMap_cons, spec_lead_for, hlk, ih]
    | some item =>
      cases hauth : item.authors.getD [] with
      | nil => simp [build_leads, List.filterMap_cons, spec_lead_for, hlk, hauth, ih]
      | cons a as =>
        have hnamed := hnames _ (lookup_mem uid_dict uid item hlk)
        simp only [first_author_named, hauth] at hnamed
        cases hname : a.name with
        | none => rw [hname] at hnamed; simp at hnamed
        | some n =>
          simp [build_leads, List.filterMap_cons, spec_lead_for, hlk, hauth, hname, ih,
            Except.map]

/-- C5 counterexample: a search result `["1", "2"]` whose summary lists a
well-formed author for id 1 but a first author lacking a `name` key for
id 2. The claim says id 1 (present, with listed authors) must appear in the
output; in the code the `KeyError` on id 2's author name aborts the whole
loop, the handler returns the empty list, and id 1's candidate is lost. -/
theorem fetch_order_counterexample :
    fetch_pubmed_leads
        { searchIds := .ok ["1", "2"],
          summary := .ok
            [("1", { title := some "Hepatic toxicity study", source := some "J",
                     authors := some [{ name := some "Smith J" }] }),
             ("2", { title := some "T2", source := some "J2",
                     authors := some [{ name := none }] })] }
      = ([], some "Error connecting to PubMed: KeyError: name") ∧
    (List.lookup "1"
        ([("1", { title := some "Hepatic toxicity study", source := some "J",
                  authors := some [{ name := some "Smith J" }] }),
          ("2", { title := some "T2", source := some "J2",
                  authors := some [{ name := none }] })] : SummaryDict))
      = some { title := some "Hepatic toxicity study", source := some "J",
               authors := some [{ name := some "Smith J" }] } ∧
    (some [{ name := some "Smith J" }] : Option (List Author)) ≠ some [] := by
  refine ⟨?_, by decide, by decide⟩
  rfl

/-- C5 (amended): for every search response and summary response IN WHICH
every listed first author carries a name, the adapter iterates the
identifiers in search-result order, omits exactly those absent from the
summary or without listed authors, and the output preserves the search
order with no gaps and no reordering (it equals the order-preserving
`filterMap` of the per-id expected lead). When some first author lacks a
name, the whole fetch instead fails soft to the empty list. -/
theorem fetch_pubmed_leads_order (env : FetchEnv)
    (id_list : List String) (uid_dict : SummaryDict)
    (hs : env.searchIds = .ok id_list) (hm : env.summary = .ok uid_dict)
    (hnames : ∀ p ∈ uid_dict, first_author_named p.2 = true) :
    fetch_pubmed_leads env = (id_list.filterMap (spec_lead_for uid_dict), none) := by
  have ha : (fetch_attempt env).1 = .ok (id_list.filterMap (spec_lead_for uid_dict)) := by
    unfold fetch_attempt
    rw [hs]
    cases id_list with
    | nil => rfl
    | cons uid rest =>
      rw [hm]
      simpa using build_leads_eq_filterMap uid_dict hnames (uid :: rest)
  unfold fetch_pubmed_leads
  rw [ha]

/-- Witness for C5 (amended) at a concrete environment: ids `["1","2","3"]`
where id 1 has a named author, id 2 is absent from the summary and id 3 has
no listed authors; the output is exactly id 1's lead. -/
theorem fetch_pubmed_leads_order_witness :
    fetch_pubmed_leads
        { searchIds := .ok ["1", "2", "3"],
          summary := .ok
            [("1", { title := some "Hepatic toxicity study", source := some "J",
                     authors := some [{ name := some "Smith J" }] }),
             ("3", { title := some "T3", source := some "J3", authors := some [] })] }
      = ([build_lead "Smith J"
            { title := some "Hepatic toxicity study", source := some "J",
              authors := some [{ name := some "Smith J" }] }], none) := by
  rw [fetch_pubmed_leads_order _ ["1", "2", "3"]
      [("1", { title := some "Hepatic toxicity study", source := some "J",
               authors := some [{ name := some "Smith J" }] }),
       ("3", { title := some "T3", source := some "J3", authors := some [] })]
      rfl rfl (by decide)]
  rfl

/-! ## Theorems about the render-time sort -/

lemma insertAsc_filter_eq (x : ProcessedRow) (l : List ProcessedRow) (s : Nat)
    (hx : x.score = s) :
    (insertAsc x l).filter (fun r => r.score == s)
      = x :: l.filter (fun r => r.score == s) := by
  induction l with
  | nil => simp [insertAsc, List.filter, hx]
  | cons y ys ih =>
    rw [insertAsc]
    by_cases hle : x.score ≤ y.score
    · rw [if_pos hle]
      simp [List.filter_cons, hx]
    · rw [if_neg hle]
      have hy : (y.score == s) = false := by
        apply beq_false_of_ne
        omega
      simp [List.filter_cons, hy, ih]

lemma insertAsc_filter_ne (x : ProcessedRow) (l : List ProcessedRow) (s : Nat)
    (hx : x.score ≠ s) :
    (insertAsc x l).filter (fun r => r.score == s)
      = l.filter (fun r => r.score == s) := by
  induction l with
  | nil => simp [insertAsc, List.filter, beq_false_of_ne hx]
  | cons y ys ih =>
    rw [insertAsc]
    by_cases hle : x.score ≤ y.score
    · rw [if_pos hle]
      simp [List.filter_cons, beq_false_of_ne hx]
    · rw [if_neg hle]
      simp [List.filter_cons, ih]

/-- The ascending argsort pass is stable: restricting it to the rows of any
one score value gives back those rows in their original order. -/
lemma sortAsc_filter (l : List ProcessedRow) (s : Nat) :
    (sortAsc l).filter (fun r => r.score == s) = l.filter (fun r => r.score == s) := by
  induction l with
  | nil => rfl
  | cons x xs ih =>
    rw [sortAsc]
    by_cases hx : x.score = s
    · rw [insertAsc_filter_eq x (sortAsc xs) s hx, ih, List.filter_cons]
      simp [hx]
    · rw [insertAsc_filter_ne x (sortAsc xs) s hx, ih, List.filter_cons]
      simp [beq_false_of_ne hx]

/-- C3 counterexample: two candidates with equal scores, held in order
A then B. The rendered output lists B before A — pandas reverses the stable
ascending argsort for a descending sort, so ties come out in REVERSED fetch
order, contradicting the claimed stability. -/
theorem render_stability_counterexample :
    (calculate_propensity_score
        { Name := "A", Title := "X", Company := "J",
          Affiliation := some "Check LinkedIn", LinkedIn := "",
          Enriched_Location := some "", Enriched_Funding := some "" }).1
      = (calculate_propensity_score
        { Name := "B", Title := "Y", Company := "J",
          Affiliation := some "Check LinkedIn", LinkedIn := "",
          Enriched_Location := some "", Enriched_Funding := some "" }).1 ∧
    (render
        [{ Name := "A", Title := "X", Company := "J",
           Affiliation := some "Check LinkedIn", LinkedIn := "",
           Enriched_Location := some "", Enriched_Funding := some "" },
         { Name := "B", Title := "Y", Company := "J",
           Affiliation := some "Check LinkedIn", LinkedIn := "",
           Enriched_Location := some "", Enriched_Funding := some "" }]).map
      (fun r => r.cand.Name) = ["B", "A"] ∧
    (render
        [{ Name := "A", Title := "X", Company := "J",
           Affiliation := some "Check LinkedIn", LinkedIn := "",
           Enriched_Location := some "", Enriched_Funding := some "" },
         { Name := "B", Title := "Y", Company := "J",
           Affiliation := some "Check LinkedIn", LinkedIn := "",
           Enriched_Location := some "", Enriched_Funding := some "" }]).map
      (fun r => r.cand.Name) ≠ ["A", "B"] := by
  decide

/-- C3 (amended): the render step's descending sort is ANTI-stable on ties:
for every held list, the rows of any one score value appear in the rendered
output in the REVERSE of the relative order they had in the held list
(pandas computes a stable ascending argsort of the score column and, for
`ascending=False`, reverses that indexer wholesale). -/
theorem render_sort_ties_reversed (held : List Candidate) (s : Nat) :
    (render held).filter (fun r => r.score == s)
      = ((process_leads held).filter (fun r => r.score == s)).reverse := by
  unfold render sort_values
  rw [List.filter_reverse, sortAsc_filter]

/-! ## Theorems about the enrichment simulator -/

lemma enrich_low_draws_aux (k : Nat) (held : List Candidate) :
    ∀ c ∈ (enrich_data (fun _ => (1 : ℚ)/10) k held).1,
      c.Enriched_Location = some "Cambridge, MA" ∧
      c.Enriched_Funding = some "Series B" ∧ c.Company = "Apex Biopharma" := by
  have h13 : ((1 : ℚ)/10) < 3/10 := by norm_num
  induction held generalizing k with
  | nil =>
    intro c hc
    simp [enrich_data] at hc
  | cons p rest ih =>
    intro c hc
    simp only [enrich_data, if_pos h13, List.mem_cons] at hc
    rcases hc with rfl | hc
    · exact ⟨rfl, rfl, rfl⟩
    · exact ih (k + 1) c hc

/-- C9: with the random source stubbed so every draw returns 0.1, enriching
any non-empty held list takes the first branch for every candidate: each
ends with `Enriched_Location = "Cambridge, MA"`,
`Enriched_Funding = "Series B"` and `Company = "Apex Biopharma"`. -/
theorem enrich_low_draws_first_branch (held : List Candidate) (hne : held ≠ []) :
    ∀ c ∈ (enrich_data (fun _ => (1 : ℚ)/10) 0 held).1,
      c.Enriched_Location = some "Cambridge, MA" ∧
      c.Enriched_Funding = some "Series B" ∧ c.Company = "Apex Biopharma" :=
  enrich_low_draws_aux 0 held

/-- A concrete candidate, as fetched, used to witness the enrichment
claim. -/
def plain_candidate : Candidate :=
  { Name := "A", Title := "X", Company := "J",
    Affiliation := some "Check LinkedIn", LinkedIn := "",
    Enriched_Location := some "", Enriched_Funding := some "" }

/-- `plain_candidate` after the first enrichment branch. -/
def enriched_candidate : Candidate :=
  { Name := "A", Title := "X", Company := "Apex Biopharma",
    Affiliation := some "Check LinkedIn", LinkedIn := "",
    Enriched_Location := some "Cambridge, MA", Enriched_Funding := some "Series B" }

/-- Witness for C9 at a concrete one-element held list: the enriched
candidate is in the output and carries the first branch's three values. -/
theorem enrich_low_draws_first_branch_witness :
    enriched_candidate ∈ (enrich_data (fun _ => (1 : ℚ)/10) 0 [plain_candidate]).1 ∧
    (enriched_candidate.Enriched_Location = some "Cambridge, MA" ∧
      enriched_candidate.Enriched_Funding = some "Series B" ∧
      enriched_candidate.Company = "Apex Biopharma") := by
  have h13 : ((1 : ℚ)/10) < 3/10 := by norm_num
  have hres : (enrich_data (fun _ => (1 : ℚ)/10) 0 [plain_candidate]).1
      = [enriched_candidate] := by
    simp only [enrich_data]
    rw [if_pos h13]
    rfl
  have hm : enriched_candidate ∈ (enrich_data (fun _ => (1 : ℚ)/10) 0 [plain_candidate]).1 := by
    rw [hres]
    exact List.mem_singleton.mpr rfl
  exact ⟨hm, enrich_low_draws_first_branch _ (by simp) _ hm⟩

/-- C10: enrichment never writes `Name`, `Title`, `Affiliation` or
`LinkedIn`, whatever random branch is taken; and `Company` is changed only
by the first branch (where it becomes `"Apex Biopharma"` together with that
branch's location and funding values) — in the second branch and in the
leave-unchanged branch `Company` keeps its old value. -/
theorem enrich_frame (draws : Nat → ℚ) (k : Nat) (held : List Candidate) :
    List.Forall₂
      (fun p q =>
        q.Name = p.Name ∧ q.Title = p.Title ∧ q.Affiliation = p.Affiliation ∧
        q.LinkedIn = p.LinkedIn ∧
        (q.Company = p.Company ∨
          (q.Company = "Apex Biopharma" ∧ q.Enriched_Location = some "Cambridge, MA" ∧
            q.Enriched_Funding = some "Series B")))
      held (enrich_data draws k held).1 := by
  induction held generalizing k with
  | nil => simp [enrich_data]
  | cons p rest ih =>
    rw [enrich_data]
    by_cases h1 : draws k < 3/10
    · rw [if_pos h1]
      exact List.Forall₂.cons ⟨rfl, rfl, rfl, rfl, Or.inr ⟨rfl, rfl, rfl⟩⟩ (ih (k + 1))
    · rw [if_neg h1]
      by_cases h2 : draws (k + 1) < 5/10
      · rw [if_pos h2]
        exact List.Forall₂.cons ⟨rfl, rfl, rfl, rfl, Or.inl rfl⟩ (ih (k + 2))
      · rw [if_neg h2]
        exact List.Forall₂.cons ⟨rfl, rfl, rfl, rfl, Or.inl rfl⟩ (ih (k + 2))
